import Mathlib

/-
  Verification of the KARMA pipeline's quality-control core.

  Shallow embedding of the relevant parts of the repository:
  * `karma/core/data_structures.py` — `KnowledgeTriple`, `KGEntity`,
    `DocumentMetadata`, `ProcessingMetrics`, `IntermediateOutput` and its
    serialization (`to_dict` / `load_from_file`).
  * `karma/agents/conflict_resolution/agent.py` —
    `ConflictResolutionAgent.resolve_conflicts` / `_find_contradiction`.
  * `karma/agents/evaluator/agent.py` —
    `EvaluatorAgent.finalize_triples` / `_aggregate_scores`.
  * `karma/agents/entity_extraction/agent.py` —
    `EntityExtractionAgent._deduplicate_entities`.
  * `karma/agents/schema_alignment/agent.py` —
    `SchemaAlignmentAgent._normalize_relation`.

  Python floats are modelled as rationals (ℚ); at every concrete input used
  below the float computation is exact enough that the comparisons agree.
  Python lists are Lean lists; an insertion-ordered `dict` keyed by strings is
  modelled as a list with pairwise-distinct keys in insertion order.
-/

namespace Karma

/-- Python's `str.lower()` (ASCII-faithful, as in all strings this code
compares): lowercase every character.  Implemented over the character list so
that it computes by kernel reduction. -/
def strLower (s : String) : String :=
  ⟨s.data.map Char.toLower⟩

/-- Python's `str.strip()` with no argument: remove leading and trailing
whitespace. -/
def strTrim (s : String) : String :=
  ⟨((s.data.dropWhile Char.isWhitespace).reverse.dropWhile
      Char.isWhitespace).reverse⟩

/-- The `KnowledgeTriple` dataclass of `karma/core/data_structures.py`,
with the same field order and defaults. -/
structure KnowledgeTriple where
  head : String
  relation : String
  tail : String
  confidence : ℚ := 0
  source : String := "unknown"
  relevance : ℚ := 0
  clarity : ℚ := 0
deriving DecidableEq, Repr

/-- The fixed `contradiction_pairs` set of
`ConflictResolutionAgent._find_contradiction`. -/
def contradictionPairs : List (String × String) :=
  [("treats", "causes"), ("inhibits", "activates"),
   ("increases", "decreases"), ("upregulates", "downregulates")]

/-- The per-pair test inside `_find_contradiction`: same head and tail
(case-insensitively) and the two relation labels form one of the opposed
pairs, in either order.  Relation labels are compared verbatim (the source
does not lowercase them at this point). -/
def contradicts (existing newTriple : KnowledgeTriple) : Bool :=
  strLower existing.head == strLower newTriple.head &&
  strLower existing.tail == strLower newTriple.tail &&
  (contradictionPairs.contains (existing.relation, newTriple.relation) ||
   contradictionPairs.contains (newTriple.relation, existing.relation))

/-- `ConflictResolutionAgent._find_contradiction`: first existing triple that
contradicts the new one, `none` when there is no such triple. -/
def findContradiction (newTriple : KnowledgeTriple) :
    List KnowledgeTriple → Option KnowledgeTriple
  | [] => none
  | existing :: rest =>
    if contradicts existing newTriple then some existing
    else findContradiction newTriple rest

/-- The loop of `ConflictResolutionAgent.resolve_conflicts`: a new triple with
a found contradiction survives only when its confidence strictly exceeds the
found triple's; non-conflicting new triples are always kept. -/
def resolveConflictsList (newTriples existingTriples : List KnowledgeTriple) :
    List KnowledgeTriple :=
  match newTriples with
  | [] => []
  | n :: rest =>
    match findContradiction n existingTriples with
    | some conflicting =>
      if conflicting.confidence < n.confidence then
        n :: resolveConflictsList rest existingTriples
      else
        resolveConflictsList rest existingTriples
    | none => n :: resolveConflictsList rest existingTriples

/-- `ConflictResolutionAgent.resolve_conflicts`: returns the filtered list to
add together with the constant metrics `(0, 0, 0.0)` of the source. -/
def resolveConflicts (newTriples existingTriples : List KnowledgeTriple) :
    List KnowledgeTriple × Nat × Nat × ℚ :=
  (resolveConflictsList newTriples existingTriples, 0, 0, 0)

/-- The "ensure all metrics are set" block of `EvaluatorAgent.finalize_triples`:
each of confidence, clarity, relevance that is ≤ 0 is set to 0.5.  In the
source this mutates the triple in place; here it is the post-state of the
triple. -/
def normalizeScores (t : KnowledgeTriple) : KnowledgeTriple :=
  { t with
    confidence := if t.confidence ≤ 0 then 0.5 else t.confidence
    clarity := if t.clarity ≤ 0 then 0.5 else t.clarity
    relevance := if t.relevance ≤ 0 then 0.5 else t.relevance }

/-- `EvaluatorAgent._aggregate_scores`: the weighted integration score. -/
def aggregateScores (t : KnowledgeTriple) : ℚ :=
  0.5 * t.confidence + 0.25 * t.clarity + 0.25 * t.relevance

/-- `EvaluatorAgent.finalize_triples`, with `threshold` standing for the
agent's `integrate_threshold` member.  The source mutates the caller's triples
in place and returns the integrated list; the state-passing translation
returns both the post-states of all input triples (first component, in input
order) and the integrated list (second component), whose elements are the
post-state objects. -/
def finalizeTriples (threshold : ℚ) :
    List KnowledgeTriple → List KnowledgeTriple × List KnowledgeTriple
  | [] => ([], [])
  | t :: rest =>
    let t' := normalizeScores t
    let others := finalizeTriples threshold rest
    if threshold ≤ aggregateScores t' then
      (t' :: others.1, t' :: others.2)
    else
      (t' :: others.1, others.2)

/-- The `KGEntity` dataclass of `karma/core/data_structures.py`, with the
same field order and defaults. -/
structure KGEntity where
  entity_id : String
  entity_type : String := "Unknown"
  name : String := ""
  normalized_id : String := "N/A"
  aliases : List String := []
deriving DecidableEq, Repr

/-- The normalized comparison key of
`EntityExtractionAgent._deduplicate_entities`: `entity.name.lower().strip()`. -/
def entityKey (e : KGEntity) : String :=
  strTrim (strLower e.name)

/-- The merge block of `_deduplicate_entities`, applied when an incoming
entity's key is already present.  The three field updates of the source are
independent and are translated per field:
type is overwritten only when the existing one is "Unknown" and the incoming
one is not; aliases are extended and then run through `list(set(...))`
(modelled as `dedup` of the concatenation — the source's set-iteration order
is unspecified); the normalized ontology id is overwritten only when the
existing one is "N/A" and the incoming one is not. -/
def mergeEntity (existing incoming : KGEntity) : KGEntity :=
  { existing with
    entity_type :=
      if incoming.entity_type ≠ "Unknown" ∧ existing.entity_type = "Unknown"
      then incoming.entity_type else existing.entity_type
    aliases :=
      if incoming.aliases ≠ [] then (existing.aliases ++ incoming.aliases).dedup
      else existing.aliases
    normalized_id :=
      if incoming.normalized_id ≠ "N/A" ∧ existing.normalized_id = "N/A"
      then incoming.normalized_id else existing.normalized_id }

/-- One step of the `_deduplicate_entities` loop.  The `unique_entities` dict
(insertion-ordered, keyed by `entityKey`, keys pairwise distinct) is modelled
as the list of its values in insertion order: a present key merges into the
stored record, an absent key appends the entity as-is. -/
def insertEntity (acc : List KGEntity) (e : KGEntity) : List KGEntity :=
  if acc.any fun x => entityKey x == entityKey e then
    acc.map fun x => if entityKey x == entityKey e then mergeEntity x e else x
  else acc ++ [e]

/-- `EntityExtractionAgent._deduplicate_entities`: fold the input through the
dict, then return the dict's values in insertion order (Python 3.7+ dict
semantics).  The source's early return on an empty input also yields `[]`. -/
def deduplicateEntities (entities : List KGEntity) : List KGEntity :=
  entities.foldl insertEntity []

/-- The fixed `synonyms` table of `SchemaAlignmentAgent._normalize_relation`. -/
def relationSynonyms : List (String × String) :=
  [("inhibit", "inhibits"), ("inhibited", "inhibits"),
   ("treat", "treats"), ("treated", "treats"),
   ("cause", "causes"), ("caused", "causes"),
   ("activate", "activates"), ("activates", "activates"),
   ("associated with", "associated_with"),
   ("interacts with", "interacts_with")]

/-- `SchemaAlignmentAgent._normalize_relation`:
`synonyms.get(relation.lower(), relation.lower())`.  The label is lowercased
(not trimmed) and looked up in the table; absent labels pass through
lowercased. -/
def normalizeRelation (relation : String) : String :=
  match relationSynonyms.lookup (strLower relation) with
  | some canonical => canonical
  | none => strLower relation

/-- `SchemaAlignmentAgent.align_relationships`: rewrite each triple's relation
label through `normalizeRelation` (the source mutates the triples in place and
returns the same list; the returned list is the post-state). -/
def alignRelationships (triples : List KnowledgeTriple) : List KnowledgeTriple :=
  triples.map fun t => { t with relation := normalizeRelation t.relation }

/-- The `DocumentMetadata` dataclass of `karma/core/data_structures.py`.
`asdict` turns it into a dict of exactly these fields and
`DocumentMetadata(**value)` rebuilds an equal instance, so the dict form is
identified with the record itself. -/
structure DocumentMetadata where
  title : String := "Unknown Title"
  authors : List String := []
  journal : String := "Unknown Journal"
  pub_date : String := "N/A"
  doi : String := "N/A"
  pmid : String := "N/A"
  document_type : String := "article"
deriving DecidableEq, Repr

/-- The `ProcessingMetrics` dataclass; `agent_times` is a string-keyed dict
modelled as an insertion-ordered association list.  As with the metadata, the
dict form produced by `asdict` is identified with the record because
`ProcessingMetrics(**value)` rebuilds an equal instance. -/
structure ProcessingMetrics where
  prompt_tokens : Int := 0
  completion_tokens : Int := 0
  processing_time : ℚ := 0
  agent_times : List (String × ℚ) := []
  error_count : Int := 0
deriving DecidableEq, Repr

/-- The segment dicts built by `ReaderAgent._split_into_segments` (keys
`text`, `score`, `section`, `position`, `word_count`), stored in
`IntermediateOutput.segments` / `relevant_segments` as plain dicts. -/
structure SegmentDict where
  text : String
  score : ℚ
  section_type : String
  position : Int
  word_count : Int
deriving DecidableEq, Repr

/-- The plain dict that `asdict` produces for a `KGEntity`. -/
structure EntityDict where
  entity_id : String
  entity_type : String
  name : String
  normalized_id : String
  aliases : List String
deriving DecidableEq, Repr

/-- The plain dict that `asdict` produces for a `KnowledgeTriple`. -/
structure TripleDict where
  head : String
  relation : String
  tail : String
  confidence : ℚ
  source : String
  relevance : ℚ
  clarity : ℚ
deriving DecidableEq, Repr

/-- A runtime value stored in an entity-list field of `IntermediateOutput`:
normally a `KGEntity` instance, but `load_from_file` can leave a raw JSON
dict behind.  A dataclass instance and a dict never compare equal in the
source, mirrored here by the two constructors. -/
inductive EntityVal where
  | obj (e : KGEntity)
  | dict (d : EntityDict)
deriving DecidableEq, Repr

/-- A runtime value stored in a triple-list field of `IntermediateOutput`. -/
inductive TripleVal where
  | obj (t : KnowledgeTriple)
  | dict (d : TripleDict)
deriving DecidableEq, Repr

/-- `asdict` on an entity-list element: an instance becomes the dict of its
fields, a dict is deep-copied as-is. -/
def entityValToDict : EntityVal → EntityDict
  | .obj e => ⟨e.entity_id, e.entity_type, e.name, e.normalized_id, e.aliases⟩
  | .dict d => d

/-- `asdict` on a triple-list element. -/
def tripleValToDict : TripleVal → TripleDict
  | .obj t => ⟨t.head, t.relation, t.tail, t.confidence, t.source, t.relevance,
               t.clarity⟩
  | .dict d => d

/-- `KGEntity.from_dict`: `KGEntity(**data)`. -/
def entityFromDict (d : EntityDict) : KGEntity :=
  ⟨d.entity_id, d.entity_type, d.name, d.normalized_id, d.aliases⟩

/-- `KnowledgeTriple.from_dict`: `KnowledgeTriple(**data)`. -/
def tripleFromDict (d : TripleDict) : KnowledgeTriple :=
  ⟨d.head, d.relation, d.tail, d.confidence, d.source, d.relevance, d.clarity⟩

/-- The `IntermediateOutput` dataclass (the pipeline run record), with every
field of the source.  Entity- and triple-list fields hold runtime values that
are either dataclass instances or raw dicts (see `EntityVal`). -/
structure IntermediateOutput where
  raw_text : String := ""
  metadata : Option DocumentMetadata := none
  segments : List SegmentDict := []
  relevant_segments : List SegmentDict := []
  summaries : List String := []
  entities : List EntityVal := []
  relationships : List TripleVal := []
  aligned_entities : List EntityVal := []
  aligned_triples : List TripleVal := []
  final_triples : List TripleVal := []
  integrated_triples : List TripleVal := []
  metrics : ProcessingMetrics := {}
deriving DecidableEq, Repr

/-- The dict produced by `IntermediateOutput.to_dict` (and written to the
JSON file verbatim): `asdict(self)` key by key, with dataclass elements
already converted to plain dicts, so the `hasattr(value[0], 'to_dict')`
branch is never taken and each field passes through. -/
structure IntermediateOutputDict where
  raw_text : String
  metadata : Option DocumentMetadata
  segments : List SegmentDict
  relevant_segments : List SegmentDict
  summaries : List String
  entities : List EntityDict
  relationships : List TripleDict
  aligned_entities : List EntityDict
  aligned_triples : List TripleDict
  final_triples : List TripleDict
  integrated_triples : List TripleDict
  metrics : ProcessingMetrics
deriving DecidableEq, Repr

/-- `IntermediateOutput.to_dict`: serialization of the run record. -/
def IntermediateOutput.to_dict (r : IntermediateOutput) :
    IntermediateOutputDict :=
  { raw_text := r.raw_text
    metadata := r.metadata
    segments := r.segments
    relevant_segments := r.relevant_segments
    summaries := r.summaries
    entities := r.entities.map entityValToDict
    relationships := r.relationships.map tripleValToDict
    aligned_entities := r.aligned_entities.map entityValToDict
    aligned_triples := r.aligned_triples.map tripleValToDict
    final_triples := r.final_triples.map tripleValToDict
    integrated_triples := r.integrated_triples.map tripleValToDict
    metrics := r.metrics }

/-- `IntermediateOutput.load_from_file` minus the file I/O: rebuild a run
record from the parsed JSON dict.  The source special-cases the keys
`entities`, `relationships`, `aligned_triples`, `final_triples`,
`integrated_triples` (rebuilt through `from_dict` when non-empty), `metadata`
and `metrics`; every other key — `aligned_entities` included — is stored by a
plain `setattr`, so its raw dicts are kept verbatim. -/
def IntermediateOutput.load (data : IntermediateOutputDict) :
    IntermediateOutput :=
  { raw_text := data.raw_text
    metadata := data.metadata
    segments := data.segments
    relevant_segments := data.relevant_segments
    summaries := data.summaries
    entities :=
      if data.entities.isEmpty then []
      else data.entities.map fun d => .obj (entityFromDict d)
    relationships :=
      if data.relationships.isEmpty then []
      else data.relationships.map fun d => .obj (tripleFromDict d)
    aligned_entities := data.aligned_entities.map .dict
    aligned_triples :=
      if data.aligned_triples.isEmpty then []
      else data.aligned_triples.map fun d => .obj (tripleFromDict d)
    final_triples :=
      if data.final_triples.isEmpty then []
      else data.final_triples.map fun d => .obj (tripleFromDict d)
    integrated_triples :=
      if data.integrated_triples.isEmpty then []
      else data.integrated_triples.map fun d => .obj (tripleFromDict d)
    metrics := data.metrics }

/-! ### Concrete scenario inputs -/

/-- The already-accepted triple of the conflict-resolution scenario:
`("aspirin","treats","headache", 0.9, 0.8, 0.7)`. -/
def aspirinTreats : KnowledgeTriple :=
  { head := "aspirin", relation := "treats", tail := "headache",
    confidence := 0.9, relevance := 0.8, clarity := 0.7 }

/-- The newly proposed triple of the conflict-resolution scenario:
`("aspirin","causes","headache", 0.6, 0.5, 0.5)`. -/
def aspirinCauses : KnowledgeTriple :=
  { head := "aspirin", relation := "causes", tail := "headache",
    confidence := 0.6, relevance := 0.5, clarity := 0.5 }

/-- Quality-gate scenario triple with confidence 0.7, clarity 0.5,
relevance 0.5. -/
def gateTriple07 : KnowledgeTriple :=
  { head := "h", relation := "r", tail := "t",
    confidence := 0.7, relevance := 0.5, clarity := 0.5 }

/-- The same quality-gate scenario triple with confidence raised to 0.9. -/
def gateTriple09 : KnowledgeTriple :=
  { head := "h", relation := "r", tail := "t",
    confidence := 0.9, relevance := 0.5, clarity := 0.5 }

/-- Entity-merge scenario input `{name:"TP53", type:"Unknown"}`. -/
def entityTP53Unknown : KGEntity :=
  { entity_id := "TP53", entity_type := "Unknown", name := "TP53" }

/-- Entity-merge scenario input `{name:"tp53", type:"Gene", aliases:["p53"]}`. -/
def entityTp53Gene : KGEntity :=
  { entity_id := "tp53", entity_type := "Gene", name := "tp53",
    aliases := ["p53"] }

/-- Entity-merge scenario expected result
`{name:"TP53", type:"Gene", aliases:["p53"]}`. -/
def entityTP53Merged : KGEntity :=
  { entity_id := "TP53", entity_type := "Gene", name := "TP53",
    aliases := ["p53"] }

/-- A run record whose `aligned_entities` stage field is non-empty. -/
def recordWithAlignedEntity : IntermediateOutput :=
  { aligned_entities := [.obj { entity_id := "TP53", entity_type := "Gene",
                                name := "TP53" }] }

/-! ### Helper lemmas: conflict resolution -/

/-- The survival test the `resolve_conflicts` loop applies to one new triple:
survive when no contradiction is found, or when the found conflicting triple
has strictly lower confidence. -/
def keepNewTriple (existingTriples : List KnowledgeTriple)
    (n : KnowledgeTriple) : Bool :=
  match findContradiction n existingTriples with
  | some conflicting => decide (conflicting.confidence < n.confidence)
  | none => true

lemma resolveConflictsList_eq_filter
    (newTriples existingTriples : List KnowledgeTriple) :
    resolveConflictsList newTriples existingTriples =
      newTriples.filter (keepNewTriple existingTriples) := by
  induction newTriples with
  | nil => rfl
  | cons n rest ih =>
    cases h : findContradiction n existingTriples with
    | none =>
      simp [resolveConflictsList, h, List.filter_cons, keepNewTriple, ih]
    | some e =>
      by_cases hc : e.confidence < n.confidence
      · simp [resolveConflictsList, h, List.filter_cons, keepNewTriple, hc, ih]
      · simp [resolveConflictsList, h, List.filter_cons, keepNewTriple, hc, ih]

lemma mem_resolveConflictsList {n : KnowledgeTriple}
    {newTriples existingTriples : List KnowledgeTriple} :
    n ∈ resolveConflictsList newTriples existingTriples ↔
      n ∈ newTriples ∧ keepNewTriple existingTriples n = true := by
  rw [resolveConflictsList_eq_filter]
  exact List.mem_filter

lemma findContradiction_eq_none_iff (n : KnowledgeTriple) :
    ∀ existingTriples : List KnowledgeTriple,
      findContradiction n existingTriples = none ↔
        ∀ e ∈ existingTriples, contradicts e n = false
  | [] => by simp [findContradiction]
  | e :: rest => by
    by_cases h : contradicts e n = true
    · simp [findContradiction, h]
    · have h' : contradicts e n = false := by
        cases hb : contradicts e n
        · rfl
        · exact absurd hb h
      simp [findContradiction, h', findContradiction_eq_none_iff n rest]

lemma mem_resolve_of_no_contradiction
    {newTriples existingTriples : List KnowledgeTriple} {n : KnowledgeTriple}
    (hn : n ∈ newTriples)
    (hnc : ∀ e ∈ existingTriples, contradicts e n = false) :
    n ∈ resolveConflictsList newTriples existingTriples := by
  refine mem_resolveConflictsList.mpr ⟨hn, ?_⟩
  unfold keepNewTriple
  rw [(findContradiction_eq_none_iff n existingTriples).mpr hnc]

lemma confidence_exceeds_of_mem_resolve
    {newTriples existingTriples : List KnowledgeTriple} {n : KnowledgeTriple}
    (hn : n ∈ resolveConflictsList newTriples existingTriples)
    {e : KnowledgeTriple} (he : findContradiction n existingTriples = some e) :
    e.confidence < n.confidence := by
  have hk := (mem_resolveConflictsList.mp hn).2
  unfold keepNewTriple at hk
  rw [he] at hk
  simpa using hk

lemma not_mem_resolve_of_weak
    {newTriples existingTriples : List KnowledgeTriple} {n : KnowledgeTriple}
    {e : KnowledgeTriple} (he : findContradiction n existingTriples = some e)
    (hw : ¬ e.confidence < n.confidence) :
    n ∉ resolveConflictsList newTriples existingTriples := by
  intro hmem
  exact hw (confidence_exceeds_of_mem_resolve hmem he)

/-! ### Concrete evaluations for the conflict-resolution scenario -/

lemma contradicts_treats_causes :
    contradicts aspirinTreats aspirinCauses = true := by decide

lemma contradicts_causes_treats :
    contradicts aspirinCauses aspirinTreats = true := by decide

lemma findContradiction_causes :
    findContradiction aspirinCauses [aspirinTreats] = some aspirinTreats := by
  simp [findContradiction, contradicts_treats_causes]

lemma findContradiction_treats :
    findContradiction aspirinTreats [aspirinCauses] = some aspirinCauses := by
  simp [findContradiction, contradicts_causes_treats]

lemma resolve_scenario_drop :
    resolveConflictsList [aspirinCauses] [aspirinTreats] = [] := by
  have h2 : ¬ aspirinTreats.confidence < aspirinCauses.confidence := by
    norm_num [aspirinTreats, aspirinCauses]
  simp [resolveConflictsList, findContradiction_causes, h2]

lemma resolve_scenario_keep :
    resolveConflictsList [aspirinTreats] [aspirinCauses] = [aspirinTreats] := by
  have h2 : aspirinCauses.confidence < aspirinTreats.confidence := by
    norm_num [aspirinTreats, aspirinCauses]
  simp [resolveConflictsList, findContradiction_treats, h2]

/-! ### Claim theorems: conflict resolution -/

/-- Claim C1: for every list of new and existing triples, a new triple whose
contradiction search finds an existing triple is kept only if its confidence
strictly exceeds that found triple's confidence, is dropped otherwise, and a
new triple that contradicts no existing triple is always kept; on the aspirin
scenario, the proposed causes-triple (confidence 0.6) is dropped against the
accepted treats-triple (confidence 0.9), so only the first survives. -/
theorem conflict_resolution_confidence_rule :
    (∀ newTriples existingTriples : List KnowledgeTriple,
      (∀ n ∈ newTriples, (∀ e ∈ existingTriples, contradicts e n = false) →
        n ∈ (resolveConflicts newTriples existingTriples).1)
      ∧ (∀ n ∈ (resolveConflicts newTriples existingTriples).1,
          ∀ e, findContradiction n existingTriples = some e →
            e.confidence < n.confidence)
      ∧ (∀ n e : KnowledgeTriple,
          findContradiction n existingTriples = some e →
          ¬ e.confidence < n.confidence →
          n ∉ (resolveConflicts newTriples existingTriples).1))
    ∧ (resolveConflicts [aspirinCauses] [aspirinTreats]).1 = [] := by
  refine ⟨fun newTriples existingTriples => ⟨?_, ?_, ?_⟩, ?_⟩
  · intro n hn hnc
    exact mem_resolve_of_no_contradiction hn hnc
  · intro n hn e he
    exact confidence_exceeds_of_mem_resolve hn he
  · intro n e he hw
    exact not_mem_resolve_of_weak he hw
  · exact resolve_scenario_drop

/-- Witness for C1 at a concrete input: a non-conflicting new triple is kept. -/
theorem conflict_resolution_confidence_rule_witness :
    (∀ e ∈ ([] : List KnowledgeTriple), contradicts e aspirinCauses = false)
    ∧ aspirinCauses ∈ (resolveConflicts [aspirinCauses] []).1 :=
  ⟨by simp,
   (conflict_resolution_confidence_rule.1 [aspirinCauses] []).1
     aspirinCauses (by simp) (by simp)⟩

/-- Claim C4 counterexample: with new `[treats, 0.9]` and existing
`[causes, 0.6]` a contradiction is detected, yet both members of the pair are
retained among what survives (resolver output together with the read-only
existing set): the new triple wins and is added while the existing set keeps
the contradicting triple. -/
theorem conflict_resolution_both_members_survive_cex :
    findContradiction aspirinTreats [aspirinCauses] = some aspirinCauses
    ∧ contradicts aspirinCauses aspirinTreats = true
    ∧ aspirinTreats ∈
        (resolveConflicts [aspirinTreats] [aspirinCauses]).1 ++ [aspirinCauses]
    ∧ aspirinCauses ∈
        (resolveConflicts [aspirinTreats] [aspirinCauses]).1 ++ [aspirinCauses] := by
  refine ⟨findContradiction_treats, contradicts_causes_treats, ?_, ?_⟩ <;>
    simp [resolveConflicts, resolve_scenario_keep]

/-- Claim C4 as amended: conflict resolution never increases the accepted
set's size beyond `len(new) + len(existing)`, and the resolver's own output
never retains a new triple whose detected contradicting existing partner has
confidence at or above the new triple's; however, because the existing set is
only read, the existing member of a detected pair always remains, so both
members survive whenever the new triple wins. -/
theorem conflict_resolution_size_bound_and_new_side_rule
    (newTriples existingTriples : List KnowledgeTriple) :
    (resolveConflicts newTriples existingTriples).1.length +
        existingTriples.length ≤
      newTriples.length + existingTriples.length
    ∧ (∀ n ∈ (resolveConflicts newTriples existingTriples).1,
        ∀ e, findContradiction n existingTriples = some e →
          e.confidence < n.confidence) := by
  constructor
  · have hlen : (resolveConflictsList newTriples existingTriples).length ≤
        newTriples.length := by
      rw [resolveConflictsList_eq_filter]
      exact List.length_filter_le _ _
    exact Nat.add_le_add_right hlen _
  · intro n hn e he
    exact confidence_exceeds_of_mem_resolve hn he

/-- Witness for the amended C4 at a concrete input: the kept treats-triple
strictly exceeds its detected partner's confidence. -/
theorem conflict_resolution_size_bound_and_new_side_rule_witness :
    aspirinTreats ∈ (resolveConflicts [aspirinTreats] [aspirinCauses]).1
    ∧ findContradiction aspirinTreats [aspirinCauses] = some aspirinCauses
    ∧ aspirinCauses.confidence < aspirinTreats.confidence := by
  have hmem : aspirinTreats ∈ (resolveConflicts [aspirinTreats] [aspirinCauses]).1 := by
    simp [resolveConflicts, resolve_scenario_keep]
  exact ⟨hmem, findContradiction_treats,
    (conflict_resolution_size_bound_and_new_side_rule
        [aspirinTreats] [aspirinCauses]).2
      aspirinTreats hmem aspirinCauses findContradiction_treats⟩

/-! ### Helper lemmas: quality gate -/

lemma finalizeTriples_fst (threshold : ℚ) :
    ∀ ts : List KnowledgeTriple,
      (finalizeTriples threshold ts).1 = ts.map normalizeScores
  | [] => rfl
  | t :: rest => by
    by_cases h : threshold ≤ aggregateScores (normalizeScores t) <;>
      simp [finalizeTriples, h, finalizeTriples_fst threshold rest]

lemma finalizeTriples_snd (threshold : ℚ) :
    ∀ ts : List KnowledgeTriple,
      (finalizeTriples threshold ts).2 =
        (ts.map normalizeScores).filter
          (fun t => decide (threshold ≤ aggregateScores t))
  | [] => rfl
  | t :: rest => by
    by_cases h : threshold ≤ aggregateScores (normalizeScores t) <;>
      simp [finalizeTriples, h, List.filter_cons,
        finalizeTriples_snd threshold rest]

lemma normalizeScores_confidence_nonpos {t : KnowledgeTriple}
    (h : t.confidence ≤ 0) : (normalizeScores t).confidence = 0.5 := by
  simp [normalizeScores, h]

lemma normalizeScores_confidence_pos {t : KnowledgeTriple}
    (h : 0 < t.confidence) : (normalizeScores t).confidence = t.confidence := by
  simp [normalizeScores, not_le.mpr h]

lemma normalizeScores_clarity_nonpos {t : KnowledgeTriple}
    (h : t.clarity ≤ 0) : (normalizeScores t).clarity = 0.5 := by
  simp [normalizeScores, h]

lemma normalizeScores_clarity_pos {t : KnowledgeTriple}
    (h : 0 < t.clarity) : (normalizeScores t).clarity = t.clarity := by
  simp [normalizeScores, not_le.mpr h]

lemma normalizeScores_relevance_nonpos {t : KnowledgeTriple}
    (h : t.relevance ≤ 0) : (normalizeScores t).relevance = 0.5 := by
  simp [normalizeScores, h]

lemma normalizeScores_relevance_pos {t : KnowledgeTriple}
    (h : 0 < t.relevance) : (normalizeScores t).relevance = t.relevance := by
  simp [normalizeScores, not_le.mpr h]

lemma normalizeScores_idem (t : KnowledgeTriple) :
    normalizeScores (normalizeScores t) = normalizeScores t := by
  have h05 : ¬ (0.5 : ℚ) ≤ 0 := by norm_num
  unfold normalizeScores
  by_cases hc : t.confidence ≤ 0 <;> by_cases hl : t.clarity ≤ 0 <;>
    by_cases hr : t.relevance ≤ 0 <;> simp [hc, hl, hr, h05]

/-! ### Claim theorems: quality gate and scoring -/

/-- Claim C2: the quality gate first replaces each sub-score that is unset
(default 0) or ≤ 0 by 0.5, then admits a triple iff its integration score is
at least the threshold; the admitted list is exactly the filter of the
normalized candidates, each admitted triple is a fixed point of the
normalization (so beyond the default substitution no score of a surviving
triple is changed), and only admission/rejection distinguishes candidates. -/
theorem quality_gate_is_pure_threshold_filter (threshold : ℚ)
    (candidates : List KnowledgeTriple) :
    (finalizeTriples threshold candidates).2 =
      (candidates.map normalizeScores).filter
        (fun t => decide (threshold ≤ aggregateScores t))
    ∧ (∀ t, t ∈ (finalizeTriples threshold candidates).2 ↔
        t ∈ candidates.map normalizeScores ∧ threshold ≤ aggregateScores t)
    ∧ (∀ t ∈ (finalizeTriples threshold candidates).2, normalizeScores t = t)
    ∧ (∀ t ∈ candidates,
        (t.confidence ≤ 0 → (normalizeScores t).confidence = 0.5)
        ∧ (t.clarity ≤ 0 → (normalizeScores t).clarity = 0.5)
        ∧ (t.relevance ≤ 0 → (normalizeScores t).relevance = 0.5)) := by
  refine ⟨finalizeTriples_snd threshold candidates, ?_, ?_, ?_⟩
  · intro t
    rw [finalizeTriples_snd, List.mem_filter]
    simp
  · intro t ht
    rw [finalizeTriples_snd, List.mem_filter] at ht
    obtain ⟨hmem, -⟩ := ht
    obtain ⟨s, -, rfl⟩ := List.mem_map.mp hmem
    exact normalizeScores_idem s
  · intro t _
    exact ⟨normalizeScores_confidence_nonpos, normalizeScores_clarity_nonpos,
      normalizeScores_relevance_nonpos⟩

/-- A candidate triple whose three sub-scores are left at the dataclass
default 0 (unset). -/
def unsetTriple : KnowledgeTriple :=
  { head := "x", relation := "r", tail := "y" }

/-- Witness for C2 at a concrete input: the unset sub-scores of a candidate
are substituted by 0.5. -/
theorem quality_gate_is_pure_threshold_filter_witness :
    unsetTriple ∈ [unsetTriple]
    ∧ unsetTriple.confidence ≤ 0
    ∧ (normalizeScores unsetTriple).confidence = 0.5 := by
  refine ⟨by simp, by norm_num [unsetTriple], ?_⟩
  exact ((quality_gate_is_pure_threshold_filter 0.6 [unsetTriple]).2.2.2
      unsetTriple (by simp)).1 (by norm_num [unsetTriple])

/-- Claim C3: the integration score is exactly
`0.5*confidence + 0.25*clarity + 0.25*relevance`; whenever the three
sub-scores lie in [0,1] it lies in [0,1]; and it is monotonically
non-decreasing in each sub-score individually. -/
theorem integration_score_formula_bounds_monotone :
    (∀ t, aggregateScores t =
      0.5 * t.confidence + 0.25 * t.clarity + 0.25 * t.relevance)
    ∧ (∀ t : KnowledgeTriple,
        0 ≤ t.confidence → t.confidence ≤ 1 →
        0 ≤ t.clarity → t.clarity ≤ 1 →
        0 ≤ t.relevance → t.relevance ≤ 1 →
        0 ≤ aggregateScores t ∧ aggregateScores t ≤ 1)
    ∧ (∀ (t : KnowledgeTriple) (c c' : ℚ), c ≤ c' →
        aggregateScores { t with confidence := c } ≤
          aggregateScores { t with confidence := c' })
    ∧ (∀ (t : KnowledgeTriple) (c c' : ℚ), c ≤ c' →
        aggregateScores { t with clarity := c } ≤
          aggregateScores { t with clarity := c' })
    ∧ (∀ (t : KnowledgeTriple) (c c' : ℚ), c ≤ c' →
        aggregateScores { t with relevance := c } ≤
          aggregateScores { t with relevance := c' }) := by
  refine ⟨fun t => rfl, ?_, ?_, ?_, ?_⟩
  · intro t h1 h2 h3 h4 h5 h6
    unfold aggregateScores
    constructor <;> nlinarith
  · intro t c c' h
    simp only [aggregateScores]
    nlinarith
  · intro t c c' h
    simp only [aggregateScores]
    nlinarith
  · intro t c c' h
    simp only [aggregateScores]
    nlinarith

/-- Witness for C3 at a concrete input: the scenario triple's sub-scores lie
in [0,1] and so does its integration score. -/
theorem integration_score_formula_bounds_monotone_witness :
    (0 ≤ gateTriple07.confidence ∧ gateTriple07.confidence ≤ 1
      ∧ 0 ≤ gateTriple07.clarity ∧ gateTriple07.clarity ≤ 1
      ∧ 0 ≤ gateTriple07.relevance ∧ gateTriple07.relevance ≤ 1)
    ∧ 0 ≤ aggregateScores gateTriple07 ∧ aggregateScores gateTriple07 ≤ 1 := by
  refine ⟨by norm_num [gateTriple07], ?_⟩
  exact integration_score_formula_bounds_monotone.2.1 gateTriple07
    (by norm_num [gateTriple07]) (by norm_num [gateTriple07])
    (by norm_num [gateTriple07]) (by norm_num [gateTriple07])
    (by norm_num [gateTriple07]) (by norm_num [gateTriple07])

/-! ### Concrete evaluations for the quality-gate scenario -/

lemma normalizeScores_gate07 : normalizeScores gateTriple07 = gateTriple07 := by
  norm_num [normalizeScores, gateTriple07]

lemma normalizeScores_gate09 : normalizeScores gateTriple09 = gateTriple09 := by
  norm_num [normalizeScores, gateTriple09]

lemma aggregate_gate07 : aggregateScores gateTriple07 = 0.6 := by
  norm_num [aggregateScores, gateTriple07]

lemma aggregate_gate09 : aggregateScores gateTriple09 = 0.7 := by
  norm_num [aggregateScores, gateTriple09]

lemma finalize_gate07 :
    (finalizeTriples 0.6 [gateTriple07]).2 = [gateTriple07] := by
  have h : (0.6 : ℚ) ≤ aggregateScores gateTriple07 := by
    rw [aggregate_gate07]
  simp [finalizeTriples, normalizeScores_gate07, h]

lemma finalize_gate09 :
    (finalizeTriples 0.6 [gateTriple09]).2 = [gateTriple09] := by
  have h : (0.6 : ℚ) ≤ aggregateScores gateTriple09 := by
    rw [aggregate_gate09]
    norm_num
  simp [finalizeTriples, normalizeScores_gate09, h]

/-- Claim C5 counterexample: at threshold 0.6 the triple with
confidence=0.7, clarity=0.5, relevance=0.5 receives integration score 0.6 —
not 0.575 — and is accepted, not rejected. -/
theorem quality_gate_scenario_cex :
    aggregateScores gateTriple07 = 0.6
    ∧ aggregateScores gateTriple07 ≠ 0.575
    ∧ (finalizeTriples 0.6 [gateTriple07]).2 = [gateTriple07] := by
  refine ⟨aggregate_gate07, ?_, finalize_gate07⟩
  rw [aggregate_gate07]
  norm_num

/-- Claim C5 as amended: with threshold 0.6, the triple with confidence=0.7,
clarity=0.5, relevance=0.5 receives integration score 0.6 (meeting the
threshold exactly) and is accepted, and with confidence=0.9 it receives 0.7
and is accepted. -/
theorem quality_gate_scenario_amended :
    aggregateScores gateTriple07 = 0.6
    ∧ (finalizeTriples 0.6 [gateTriple07]).2 = [gateTriple07]
    ∧ aggregateScores gateTriple09 = 0.7
    ∧ (finalizeTriples 0.6 [gateTriple09]).2 = [gateTriple09] :=
  ⟨aggregate_gate07, finalize_gate07, aggregate_gate09, finalize_gate09⟩

/-- Claim C10: the quality gate's default substitution happens by mutation of
the caller's triples — after the call, the post-state of the input list (in
order) is the normalization of every input triple, accepted or rejected; the
normalization sets exactly the sub-scores that were ≤ 0 to 0.5 and leaves
head, relation, tail, source and positive sub-scores unchanged; and the
accepted list is a sublist of those same post-state objects. -/
theorem finalize_triples_frame_effects (threshold : ℚ)
    (candidates : List KnowledgeTriple) :
    (finalizeTriples threshold candidates).1 = candidates.map normalizeScores
    ∧ (∀ t ∈ candidates,
        (normalizeScores t).head = t.head
        ∧ (normalizeScores t).relation = t.relation
        ∧ (normalizeScores t).tail = t.tail
        ∧ (normalizeScores t).source = t.source
        ∧ (t.confidence ≤ 0 → (normalizeScores t).confidence = 0.5)
        ∧ (0 < t.confidence → (normalizeScores t).confidence = t.confidence)
        ∧ (t.clarity ≤ 0 → (normalizeScores t).clarity = 0.5)
        ∧ (0 < t.clarity → (normalizeScores t).clarity = t.clarity)
        ∧ (t.relevance ≤ 0 → (normalizeScores t).relevance = 0.5)
        ∧ (0 < t.relevance → (normalizeScores t).relevance = t.relevance))
    ∧ (finalizeTriples threshold candidates).2.Sublist
        (finalizeTriples threshold candidates).1 := by
  refine ⟨finalizeTriples_fst threshold candidates, ?_, ?_⟩
  · intro t _
    exact ⟨rfl, rfl, rfl, rfl,
      normalizeScores_confidence_nonpos, normalizeScores_confidence_pos,
      normalizeScores_clarity_nonpos, normalizeScores_clarity_pos,
      normalizeScores_relevance_nonpos, normalizeScores_relevance_pos⟩
  · rw [finalizeTriples_fst, finalizeTriples_snd]
    exact List.filter_sublist _

/-- Witness for C10 at a concrete input: an unset confidence is set to 0.5 in
the post-state while the head is unchanged. -/
theorem finalize_triples_frame_effects_witness :
    unsetTriple ∈ [unsetTriple]
    ∧ unsetTriple.confidence ≤ 0
    ∧ (normalizeScores unsetTriple).head = unsetTriple.head
    ∧ (normalizeScores unsetTriple).confidence = 0.5 := by
  have h := (finalize_triples_frame_effects 0.6 [unsetTriple]).2.1
    unsetTriple (by simp)
  exact ⟨by simp, by norm_num [unsetTriple], h.1,
    h.2.2.2.2.1 (by norm_num [unsetTriple])⟩

/-! ### Helper lemmas: entity deduplication -/

lemma entityKey_mergeEntity (x e : KGEntity) :
    entityKey (mergeEntity x e) = entityKey x := rfl

lemma keys_map_update (acc : List KGEntity) (e : KGEntity) :
    ((acc.map fun x =>
        if entityKey x == entityKey e then mergeEntity x e else x).map
      entityKey) = acc.map entityKey := by
  induction acc with
  | nil => rfl
  | cons a rest ih =>
    simp only [List.map_cons, ih]
    congr 1
    by_cases h : (entityKey a == entityKey e) = true
    · simp [h, entityKey_mergeEntity]
    · simp [h]

lemma keys_insertEntity (acc : List KGEntity) (e : KGEntity) :
    (insertEntity acc e).map entityKey =
      if acc.any (fun x => entityKey x == entityKey e) then acc.map entityKey
      else acc.map entityKey ++ [entityKey e] := by
  unfold insertEntity
  by_cases h : (acc.any fun x => entityKey x == entityKey e) = true
  · rw [if_pos h, if_pos h, keys_map_update]
  · rw [if_neg h, if_neg h, List.map_append]
    rfl

lemma nodup_keys_insertEntity {acc : List KGEntity} (e : KGEntity)
    (h : (acc.map entityKey).Nodup) :
    ((insertEntity acc e).map entityKey).Nodup := by
  rw [keys_insertEntity]
  by_cases hc : (acc.any fun x => entityKey x == entityKey e) = true
  · rw [if_pos hc]
    exact h
  · rw [if_neg hc]
    have hnot : entityKey e ∉ acc.map entityKey := by
      intro hm
      apply hc
      rw [List.any_eq_true]
      obtain ⟨x, hx, hxe⟩ := List.mem_map.mp hm
      exact ⟨x, hx, by simp [hxe]⟩
    rw [List.nodup_append]
    refine ⟨h, List.nodup_singleton _, ?_⟩
    intro b hb hbe
    rw [List.mem_singleton] at hbe
    exact hnot (hbe ▸ hb)

lemma nodup_keys_foldl :
    ∀ (l acc : List KGEntity), (acc.map entityKey).Nodup →
      ((l.foldl insertEntity acc).map entityKey).Nodup
  | [], _, h => h
  | e :: rest, acc, h =>
    nodup_keys_foldl rest (insertEntity acc e) (nodup_keys_insertEntity e h)

lemma nodup_keys_deduplicate (entities : List KGEntity) :
    ((deduplicateEntities entities).map entityKey).Nodup :=
  nodup_keys_foldl entities [] (by simp)

lemma foldl_insertEntity_of_nodup :
    ∀ (l acc : List KGEntity), ((acc ++ l).map entityKey).Nodup →
      l.foldl insertEntity acc = acc ++ l
  | [], acc, _ => by simp
  | e :: rest, acc, h => by
    have hnot : entityKey e ∉ acc.map entityKey := by
      rw [List.map_append] at h
      have hd := (List.nodup_append.mp h).2.2
      intro hm
      exact hd hm (by simp)
    have hfalse : (acc.any fun x => entityKey x == entityKey e) = false := by
      cases hb : acc.any fun x => entityKey x == entityKey e
      · rfl
      · rw [List.any_eq_true] at hb
        obtain ⟨x, hx, hxe⟩ := hb
        exact absurd (List.mem_map.mpr ⟨x, hx, eq_of_beq hxe⟩) hnot
    have hstep : insertEntity acc e = acc ++ [e] := by
      unfold insertEntity
      rw [if_neg (by simp [hfalse])]
    rw [List.foldl_cons, hstep,
      foldl_insertEntity_of_nodup rest (acc ++ [e]) (by simpa using h)]
    simp

/-! ### Claim theorems: entity deduplication -/

/-- Claim C8: entity deduplication is idempotent — deduplicating an already
deduplicated list changes nothing. -/
theorem deduplicate_entities_idempotent (entities : List KGEntity) :
    deduplicateEntities (deduplicateEntities entities) =
      deduplicateEntities entities := by
  have h : ((([] : List KGEntity) ++ deduplicateEntities entities).map
      entityKey).Nodup := by
    simpa using nodup_keys_deduplicate entities
  have hfold :=
    foldl_insertEntity_of_nodup (deduplicateEntities entities) [] h
  simpa [deduplicateEntities] using hfold

/-- Claim C6: merging an incoming duplicate never overwrites a field with a
weaker value — the type is kept unless the existing one is "Unknown" and the
incoming one is not, the aliases of the merged record are the union of both
alias lists, the ontology reference is kept unless the existing one is the
"N/A" sentinel, and the name and id of the first occurrence are kept; in
particular `{name:"TP53",type:"Unknown"}` and
`{name:"tp53",type:"Gene",aliases:["p53"]}` deduplicate to the single record
`{name:"TP53",type:"Gene",aliases:["p53"]}`. -/
theorem entity_merge_rules_and_scenario :
    (∀ x e : KGEntity, (mergeEntity x e).entity_type =
        if e.entity_type ≠ "Unknown" ∧ x.entity_type = "Unknown"
        then e.entity_type else x.entity_type)
    ∧ (∀ (x e : KGEntity) (a : String),
        a ∈ (mergeEntity x e).aliases ↔ a ∈ x.aliases ∨ a ∈ e.aliases)
    ∧ (∀ x e : KGEntity, (mergeEntity x e).normalized_id =
        if e.normalized_id ≠ "N/A" ∧ x.normalized_id = "N/A"
        then e.normalized_id else x.normalized_id)
    ∧ (∀ x e : KGEntity, (mergeEntity x e).name = x.name
        ∧ (mergeEntity x e).entity_id = x.entity_id)
    ∧ deduplicateEntities [entityTP53Unknown, entityTp53Gene] =
        [entityTP53Merged] := by
  refine ⟨fun x e => rfl, ?_, fun x e => rfl, fun x e => ⟨rfl, rfl⟩, by decide⟩
  intro x e a
  by_cases h : e.aliases = []
  · simp [mergeEntity, h]
  · simp [mergeEntity, h, List.mem_dedup, List.mem_append]

/-! ### Claim theorems: relation normalization -/

/-- The spec's wording of relation normalization, for comparison with the
implementation: lowercase, trim, then map through the synonym table; labels
absent from the table pass through lowercased and trimmed. -/
def normalizeRelationSpec (relation : String) : String :=
  match relationSynonyms.lookup (strTrim (strLower relation)) with
  | some canonical => canonical
  | none => strTrim (strLower relation)

/-- Claim C9 counterexample: the implementation does not trim — on the label
" Inhibited" it returns " inhibited" (lowercased, untrimmed, and unmapped
because the untrimmed key misses the table), while the claim's
lowercase-trim-map normalization returns "inhibits". -/
theorem normalize_relation_no_trim_cex :
    normalizeRelation " Inhibited" = " inhibited"
    ∧ normalizeRelation " Inhibited" ≠ "inhibits"
    ∧ normalizeRelationSpec " Inhibited" = "inhibits"
    ∧ normalizeRelation " Inhibited" ≠ normalizeRelationSpec " Inhibited" :=
  ⟨by decide, by decide, by decide, by decide⟩

/-- Claim C9 as amended: normalize lowercases the label (it does not trim)
and maps it through the fixed synonym table ("inhibited" maps to
"inhibits"); a label whose lowercased form is absent from the table passes
through lowercased but otherwise unchanged; and no label is ever rejected —
the alignment stage keeps every triple. -/
theorem normalize_relation_lowercase_table :
    (∀ r c, relationSynonyms.lookup (strLower r) = some c →
      normalizeRelation r = c)
    ∧ (∀ r, relationSynonyms.lookup (strLower r) = none →
      normalizeRelation r = strLower r)
    ∧ normalizeRelation "inhibited" = "inhibits"
    ∧ (∀ ts : List KnowledgeTriple,
        (alignRelationships ts).length = ts.length) := by
  refine ⟨?_, ?_, by decide, ?_⟩
  · intro r c h
    simp [normalizeRelation, h]
  · intro r h
    simp [normalizeRelation, h]
  · intro ts
    simp [alignRelationships]

/-- Witness for the amended C9 at a concrete input: "Inhibited" is in the
table after lowercasing and maps to "inhibits". -/
theorem normalize_relation_lowercase_table_witness :
    relationSynonyms.lookup (strLower "Inhibited") = some "inhibits"
    ∧ normalizeRelation "Inhibited" = "inhibits" :=
  ⟨by decide,
   normalize_relation_lowercase_table.1 "Inhibited" "inhibits" (by decide)⟩

/-! ### Helper lemmas: run-record serialization -/

lemma reload_entity_vals (l : List EntityVal)
    (h : ∀ v ∈ l, ∃ e, v = EntityVal.obj e) :
    ((l.map entityValToDict).map fun d => EntityVal.obj (entityFromDict d))
      = l := by
  induction l with
  | nil => rfl
  | cons v rest ih =>
    obtain ⟨e, rfl⟩ := h v (by simp)
    simp only [List.map_cons]
    rw [ih fun w hw => h w (List.mem_cons_of_mem _ hw)]
    rfl

lemma reload_entity_field (l : List EntityVal)
    (h : ∀ v ∈ l, ∃ e, v = EntityVal.obj e) :
    (if (l.map entityValToDict).isEmpty then []
     else (l.map entityValToDict).map fun d => EntityVal.obj (entityFromDict d))
      = l := by
  cases l with
  | nil => rfl
  | cons v rest => simpa using reload_entity_vals (v :: rest) h

lemma reload_triple_vals (l : List TripleVal)
    (h : ∀ v ∈ l, ∃ t, v = TripleVal.obj t) :
    ((l.map tripleValToDict).map fun d => TripleVal.obj (tripleFromDict d))
      = l := by
  induction l with
  | nil => rfl
  | cons v rest ih =>
    obtain ⟨t, rfl⟩ := h v (by simp)
    simp only [List.map_cons]
    rw [ih fun w hw => h w (List.mem_cons_of_mem _ hw)]
    rfl

lemma reload_triple_field (l : List TripleVal)
    (h : ∀ v ∈ l, ∃ t, v = TripleVal.obj t) :
    (if (l.map tripleValToDict).isEmpty then []
     else (l.map tripleValToDict).map fun d => TripleVal.obj (tripleFromDict d))
      = l := by
  cases l with
  | nil => rfl
  | cons v rest => simpa using reload_triple_vals (v :: rest) h

/-- Supporting fact for C7: the round trip is the identity precisely when
`aligned_entities` is empty (and the object-list fields hold dataclass
instances, as every record the pipeline builds does) — the reconstruction
slip is isolated to `aligned_entities`. -/
lemma load_to_dict_eq_of_aligned_entities_empty (r : IntermediateOutput)
    (ha : r.aligned_entities = [])
    (he : ∀ v ∈ r.entities, ∃ e, v = EntityVal.obj e)
    (h1 : ∀ v ∈ r.relationships, ∃ t, v = TripleVal.obj t)
    (h2 : ∀ v ∈ r.aligned_triples, ∃ t, v = TripleVal.obj t)
    (h3 : ∀ v ∈ r.final_triples, ∃ t, v = TripleVal.obj t)
    (h4 : ∀ v ∈ r.integrated_triples, ∃ t, v = TripleVal.obj t) :
    IntermediateOutput.load r.to_dict = r := by
  simp only [IntermediateOutput.load, IntermediateOutput.to_dict]
  cases r
  simp only at ha he h1 h2 h3 h4 ⊢
  subst ha
  congr 1
  · exact reload_entity_field _ he
  · exact reload_triple_field _ h1
  · exact reload_triple_field _ h2
  · exact reload_triple_field _ h3
  · exact reload_triple_field _ h4

/-! ### Claim theorem: run-record round trip -/

/-- Claim C7 (the code violates it): serializing and deserializing a run
record with a non-empty `aligned_entities` stage field does not reconstruct
an equal record — `load_from_file` rebuilds every other dataclass-list field
through `from_dict` but stores `aligned_entities` by plain `setattr`,
leaving raw dicts where `KGEntity` instances were. -/
theorem run_record_roundtrip_fails_on_aligned_entities :
    IntermediateOutput.load recordWithAlignedEntity.to_dict ≠
      recordWithAlignedEntity
    ∧ (IntermediateOutput.load recordWithAlignedEntity.to_dict).aligned_entities
        = [.dict { entity_id := "TP53", entity_type := "Gene", name := "TP53",
                   normalized_id := "N/A", aliases := [] }]
    ∧ recordWithAlignedEntity.aligned_entities
        = [.obj { entity_id := "TP53", entity_type := "Gene",
                  name := "TP53" }] :=
  ⟨by decide, by decide, rfl⟩

end Karma
